import Mathlib

/-!
Verification of the TREV4 dashboard framebuffer layer: geometry probing,
RGB to native pixel encoding (16bpp bitfield, 32bpp bitfield, fixed RGB565),
and the blit write path, modelled from `dashboard.py` and `fb_driver.py`.
Byte buffers are `List Nat` (one entry per byte); machine words are `Nat`
with explicit masking exactly where the Python code masks.
-/

/-- Framebuffer geometry snapshot, as in `dashboard.FBInfo`: visible
resolution, bits per pixel, row stride in bytes, and four channel
descriptors, each an `(offset, length)` pair of bit positions. -/
structure FBInfo where
  xres : Nat
  yres : Nat
  bpp : Nat
  stride : Nat
  r : Nat × Nat
  g : Nat × Nat
  b : Nat × Nat
  a : Nat × Nat

/-- Caller-supplied RGB raster: dimensions plus a pixel lookup returning
the 8-bit `(r, g, b)` triple at `(x, y)` (as `px[x, y]` on a Pillow image
in RGB mode). -/
structure RasterImage where
  width : Nat
  height : Nat
  px : Nat → Nat → Nat × Nat × Nat

/-- Errors the Python code can raise on the probe/encode/blit path:
`RuntimeError` for unsupported bitfields or depths, `IndexError` for a
bytearray store at an out-of-range index, `struct.error` for a value not
fitting in a u32, and `ValueError` for an mmap write past the mapped size. -/
inductive FBError where
  | unsupportedBitfield : Nat → FBError
  | unsupportedBpp : Nat → FBError
  | indexError : FBError
  | structError : FBError
  | dataOutOfRange : FBError
deriving DecidableEq, Repr

/-- Python bytearray store `buf[i] = v`: in-range stores update in place,
an out-of-range index raises `IndexError`. -/
def writeByte (buf : List Nat) (i v : Nat) : Except FBError (List Nat) :=
  if i < buf.length then .ok (buf.set i v) else .error .indexError

/-- Python bytearray slice assignment `buf[start:stop] = bs` for
`start ≤ stop`: replaces the clamped range, resizing when lengths differ. -/
def setSlice (buf : List Nat) (start stop : Nat) (bs : List Nat) : List Nat :=
  buf.take start ++ bs ++ buf.drop stop

/-- Run an effectful loop body over a list of indices in order, stopping
at the first error (a Python `for i in ...` whose body may raise). -/
def exFold (f : List Nat → Nat → Except FBError (List Nat)) :
    List Nat → List Nat → Except FBError (List Nat)
  | buf, [] => .ok buf
  | buf, i :: is =>
    match f buf i with
    | .error e => .error e
    | .ok b => exFold f b is

/-- The 16-bit word `_pack_16bit` computes for one pixel: each channel
right-shifted by `8 - length`, masked to `length` bits, left-shifted to
its offset, OR-combined. -/
def pack16PixelWord (info : FBInfo) (c : Nat × Nat × Nat) : Nat :=
  let rv := (c.1 >>> (8 - info.r.2)) &&& ((1 <<< info.r.2) - 1)
  let gv := (c.2.1 >>> (8 - info.g.2)) &&& ((1 <<< info.g.2) - 1)
  let bv := (c.2.2 >>> (8 - info.b.2)) &&& ((1 <<< info.b.2) - 1)
  (rv <<< info.r.1) ||| (gv <<< info.g.1) ||| (bv <<< info.b.1)

/-- Body of the inner loop of `_pack_16bit`: store the pixel word for
`(x, y)` little-endian (low byte first) at `y*stride + x*2`. -/
def pack16Px (img : RasterImage) (info : FBInfo) (y : Nat)
    (buf : List Nat) (x : Nat) : Except FBError (List Nat) :=
  let pix := pack16PixelWord info (img.px x y)
  let off := y * info.stride + x * 2
  match writeByte buf off (pix &&& 0xFF) with
  | .error e => .error e
  | .ok b2 => writeByte b2 (off + 1) ((pix >>> 8) &&& 0xFF)

/-- Translation of `dashboard._pack_16bit`: require a (5,6,5) bitfield,
then fill a zeroed `stride*height` buffer row by row, pixel by pixel. -/
def _pack_16bit (img : RasterImage) (info : FBInfo) : Except FBError (List Nat) :=
  if info.r.2 = 5 ∧ info.g.2 = 6 ∧ info.b.2 = 5 then
    exFold (fun buf y => exFold (pack16Px img info y) buf (List.range img.width))
      (List.replicate (info.stride * img.height) 0) (List.range img.height)
  else .error (.unsupportedBitfield 16)

/-- The u32 `_pack_32bit` computes for one pixel: each 8-bit channel at
its offset, the alpha field all-ones when present. -/
def pack32PixelWord (info : FBInfo) (c : Nat × Nat × Nat) : Nat :=
  let pix := (c.1 <<< info.r.1) ||| (c.2.1 <<< info.g.1) ||| (c.2.2 <<< info.b.1)
  if info.a.2 ≠ 0 then pix ||| ((1 <<< info.a.2) - 1) <<< info.a.1 else pix

/-- The four bytes of `struct.pack("<I", pix)`, low byte first. -/
def le32Bytes (pix : Nat) : List Nat :=
  [pix % 256, (pix >>> 8) % 256, (pix >>> 16) % 256, (pix >>> 24) % 256]

/-- Body of the inner loop of `_pack_32bit`: `struct.pack` the pixel word
(raising when it does not fit a u32, as `struct.pack("<I", ...)` does) and
slice-assign its four bytes at `y*stride + x*4`. -/
def pack32Px (img : RasterImage) (info : FBInfo) (y : Nat)
    (buf : List Nat) (x : Nat) : Except FBError (List Nat) :=
  let pix := pack32PixelWord info (img.px x y)
  let off := y * info.stride + x * 4
  if pix < 2 ^ 32 then .ok (setSlice buf off (off + 4) (le32Bytes pix))
  else .error .structError

/-- Translation of `dashboard._pack_32bit`: require 8-bit R, G, B fields,
then fill a zeroed `stride*height` buffer row by row, pixel by pixel. -/
def _pack_32bit (img : RasterImage) (info : FBInfo) : Except FBError (List Nat) :=
  if info.r.2 = 8 ∧ info.g.2 = 8 ∧ info.b.2 = 8 then
    exFold (fun buf y => exFold (pack32Px img info y) buf (List.range img.width))
      (List.replicate (info.stride * img.height) 0) (List.range img.height)
  else .error (.unsupportedBitfield 32)

/-- One row of `fb_driver.rgb_to_rgb565_bytes`: the RGB565 words of row
`y`, two little-endian bytes per pixel (`rgb565[y, :w].tobytes()`; the
`np.uint8` view of the raster reduces each channel mod 256). -/
def row565 (img : RasterImage) (y : Nat) : List Nat :=
  (List.range img.width).flatMap fun x =>
    let c := img.px x y
    let v := ((c.1 % 256 >>> 3) <<< 11) ||| ((c.2.1 % 256 >>> 2) <<< 5) |||
      (c.2.2 % 256 >>> 3)
    [v % 256, (v >>> 8) % 256]

/-- Translation of `fb_driver.rgb_to_rgb565_bytes`: zero buffer of
`stride*height` bytes, then slice-assign each row's packed bytes at
`[y*stride, y*stride + w*2)`. -/
def rgb_to_rgb565_bytes (img : RasterImage) (stride : Nat) : List Nat :=
  (List.range img.height).foldl
    (fun buf y => setSlice buf (y * stride) (y * stride + img.width * 2) (row565 img y))
    (List.replicate (stride * img.height) 0)

/-- Little-endian u32 read, as `struct.unpack_from("I", buf, off)`. -/
def unpackLE32 (buf : List Nat) (off : Nat) : Nat :=
  buf.getD off 0 ||| (buf.getD (off + 1) 0 <<< 8) |||
    (buf.getD (off + 2) 0 <<< 16) ||| (buf.getD (off + 3) 0 <<< 24)

/-- Translation of `dashboard._get_fb_info`: parse geometry and bitfields
from the raw `fb_var_screeninfo` / `fb_fix_screeninfo` buffers the ioctls
filled. No field is validated, so for any byte content the probe succeeds
and returns the parsed `FBInfo`. -/
def _get_fb_info (var fix : List Nat) : Except FBError FBInfo :=
  .ok { xres := unpackLE32 var 0
        yres := unpackLE32 var 4
        bpp := unpackLE32 var 24
        stride := unpackLE32 fix 44
        r := (unpackLE32 var 48, unpackLE32 var 52)
        g := (unpackLE32 var 60, unpackLE32 var 64)
        b := (unpackLE32 var 72, unpackLE32 var 76)
        a := (unpackLE32 var 84, unpackLE32 var 88) }

/-- Translation of `fb_driver._init_fb` after its `get_fb0_info()` call:
given the probed geometry, reject any depth other than 16 bpp with a
`RuntimeError`, otherwise return the stride. -/
def _init_fb (xres yres bpp stride : Nat) : Except FBError Nat :=
  if bpp ≠ 16 then .error (.unsupportedBpp bpp) else .ok stride

/-- Modelled from the spec: Pillow's `Image.NEAREST` resampling invoked by
`blit_image_to_fb` (the resampler lives in the Pillow library, outside
this repository). Each destination pixel takes the source pixel whose
center is nearest: `src = (2*dst + 1) * srcDim / (2 * dstDim)`. -/
def resizeNearest (img : RasterImage) (dw dh : Nat) : RasterImage where
  width := dw
  height := dh
  px := fun x y =>
    img.px ((2 * x + 1) * img.width / (2 * dw)) ((2 * y + 1) * img.height / (2 * dh))

/-- Encode half of `dashboard.blit_image_to_fb`: resize to the device
resolution when the raster size differs, then dispatch on `bpp`. -/
def blitEncode (img : RasterImage) (info : FBInfo) : Except FBError (List Nat) :=
  let img2 := if img.width = info.xres ∧ img.height = info.yres then img
    else resizeNearest img info.xres info.yres
  if info.bpp = 16 then _pack_16bit img2 info
  else if info.bpp = 32 then _pack_32bit img2 info
  else .error (.unsupportedBpp info.bpp)

/-- Python `mmap.write` after `seek(0)` on a mapping of `device.length`
bytes: a payload longer than the mapping raises `ValueError` before any
byte is copied; otherwise the payload replaces the leading bytes and the
rest of the mapping is untouched. -/
def mmapWrite (device frame : List Nat) : Except FBError (List Nat) :=
  if device.length < frame.length then .error .dataOutOfRange
  else .ok (frame ++ device.drop frame.length)

/-- Body of `dashboard.blit_image_to_fb` after probing: encode, then copy
into the mapping of `stride*yres` bytes (`device` is the mapped content). -/
def blit_image_to_fb (img : RasterImage) (info : FBInfo) (device : List Nat) :
    Except FBError (List Nat) :=
  match blitEncode img info with
  | .error e => .error e
  | .ok payload => mmapWrite device payload

/-- Modelled from the spec: decoding one channel of a packed 16-bit word,
extracting the `len`-bit field at bit `off` and shifting it back up to
8 bits. -/
def decodeChannel (word off len : Nat) : Nat :=
  ((word >>> off) &&& ((1 <<< len) - 1)) <<< (8 - len)

/-- Two channel bitfields occupy disjoint bit ranges. -/
def fieldsDisjoint (f1 f2 : Nat × Nat) : Prop :=
  f1.1 + f1.2 ≤ f2.1 ∨ f2.1 + f2.2 ≤ f1.1

instance (f1 f2 : Nat × Nat) : Decidable (fieldsDisjoint f1 f2) :=
  inferInstanceAs (Decidable (_ ∨ _))

/-! ### Byte-buffer helper lemmas -/

lemma writeByte_ok {buf : List Nat} {i : Nat} (v : Nat) (h : i < buf.length) :
    writeByte buf i v = .ok (buf.set i v) := by
  simp [writeByte, h]

lemma setSlice_length {buf : List Nat} {start stop : Nat} {bs : List Nat}
    (h1 : start + bs.length = stop) (h2 : stop ≤ buf.length) :
    (setSlice buf start stop bs).length = buf.length := by
  simp only [setSlice, List.length_append, List.length_take, List.length_drop]
  rw [Nat.min_eq_left (by omega)]
  omega

lemma setSlice_get_bs {buf : List Nat} {start stop : Nat} {bs : List Nat}
    (h1 : start ≤ buf.length) {k : Nat} (hk : k < bs.length) :
    (setSlice buf start stop bs)[start + k]? = bs[k]? := by
  have hts : (List.take start buf).length = start := by
    rw [List.length_take]; exact Nat.min_eq_left h1
  simp only [setSlice]
  rw [List.getElem?_append, if_pos (by rw [List.length_append, hts]; omega),
    List.getElem?_append_right (by omega)]
  congr 1
  omega

lemma setSlice_get_lo {buf : List Nat} {start stop : Nat} {bs : List Nat}
    (h1 : start ≤ buf.length) {j : Nat} (hj : j < start) :
    (setSlice buf start stop bs)[j]? = buf[j]? := by
  have hts : (List.take start buf).length = start := by
    rw [List.length_take]; exact Nat.min_eq_left h1
  simp only [setSlice]
  rw [List.getElem?_append, if_pos (by rw [List.length_append, hts]; omega),
    List.getElem?_append, if_pos (by omega), List.getElem?_take, if_pos hj]

lemma setSlice_get_hi {buf : List Nat} {start stop : Nat} {bs : List Nat}
    (h1 : start + bs.length = stop) (h2 : stop ≤ buf.length) {j : Nat} (hj : stop ≤ j) :
    (setSlice buf start stop bs)[j]? = buf[j]? := by
  have hts : (List.take start buf).length = start := by
    rw [List.length_take]; exact Nat.min_eq_left (by omega)
  simp only [setSlice]
  rw [List.getElem?_append_right (by rw [List.length_append, hts]; omega),
    List.getElem?_drop]
  congr 1
  rw [List.length_append, hts]
  omega

/-! ### Bit-arithmetic helper lemmas -/

lemma and255_eq_mod (x : Nat) : x &&& 0xFF = x % 256 := by
  have h : (0xFF : Nat) = 2 ^ 8 - 1 := by norm_num
  rw [h, Nat.and_pow_two_sub_one_eq_mod]

lemma shiftLeft_one_sub_one (l : Nat) : (1 <<< l) - 1 = 2 ^ l - 1 := by
  rw [Nat.shiftLeft_eq, one_mul]

lemma and_mask_lt (x l : Nat) : x &&& ((1 <<< l) - 1) < 2 ^ l := by
  rw [shiftLeft_one_sub_one, Nat.and_pow_two_sub_one_eq_mod]
  exact Nat.mod_lt _ (Nat.pos_pow_of_pos l (by norm_num))

lemma lor_lt_pow2 {x y n : Nat} (hx : x < 2 ^ n) (hy : y < 2 ^ n) : x ||| y < 2 ^ n := by
  apply Nat.lt_pow_two_of_testBit
  intro i hi
  rw [Nat.testBit_lor,
    Nat.testBit_lt_two_pow (lt_of_lt_of_le hx (Nat.pow_le_pow_right (by norm_num) hi)),
    Nat.testBit_lt_two_pow (lt_of_lt_of_le hy (Nat.pow_le_pow_right (by norm_num) hi))]
  rfl

lemma shiftLeft_lt_pow2 {v l o n : Nat} (hv : v < 2 ^ l) (h : o + l ≤ n) :
    v <<< o < 2 ^ n := by
  rw [Nat.shiftLeft_eq]
  calc v * 2 ^ o < 2 ^ l * 2 ^ o :=
        Nat.mul_lt_mul_of_lt_of_le hv (le_refl _) (Nat.pos_pow_of_pos o (by norm_num))
    _ = 2 ^ (l + o) := by rw [pow_add]
    _ ≤ 2 ^ n := Nat.pow_le_pow_right (by norm_num) (by omega)

lemma extract_lor_high {x v o l : Nat} (hv : v < 2 ^ l)
    (hx : ∀ i, o ≤ i → i < o + l → x.testBit i = false) :
    ((x ||| v <<< o) >>> o) &&& ((1 <<< l) - 1) = v := by
  rw [shiftLeft_one_sub_one]
  apply Nat.eq_of_testBit_eq
  intro i
  rw [Nat.testBit_land, Nat.testBit_two_pow_sub_one, Nat.testBit_shiftRight,
    Nat.testBit_lor, Nat.testBit_shiftLeft]
  by_cases hi : i < l
  · rw [hx (o + i) (by omega) (by omega)]
    simp [Nat.add_sub_cancel_left, hi]
  · have hvb : v.testBit i = false :=
      Nat.testBit_lt_two_pow
        (lt_of_lt_of_le hv (Nat.pow_le_pow_right (by norm_num) (by omega)))
    simp [hi, hvb]

lemma shiftLeft_testBit_false_of_disjoint {u lu ou o l : Nat} (hu : u < 2 ^ lu)
    (hdisj : ou + lu ≤ o ∨ o + l ≤ ou) :
    ∀ i, o ≤ i → i < o + l → (u <<< ou).testBit i = false := by
  intro i hi1 hi2
  rw [Nat.testBit_shiftLeft]
  rcases hdisj with h | h
  · rw [Nat.testBit_lt_two_pow
      (lt_of_lt_of_le hu (Nat.pow_le_pow_right (by norm_num) (by omega)))]
    simp
  · have : ¬ (ou ≤ i) := by omega
    simp [this]

/-! ### Characterization of the 16bpp packing loops -/

lemma pack16Px_spec (img : RasterImage) (info : FBInfo) (y x : Nat) (buf : List Nat)
    (h : y * info.stride + x * 2 + 1 < buf.length) :
    ∃ out, pack16Px img info y buf x = .ok out ∧
      out.length = buf.length ∧
      out[y * info.stride + x * 2]? = some (pack16PixelWord info (img.px x y) &&& 0xFF) ∧
      out[y * info.stride + x * 2 + 1]? =
        some ((pack16PixelWord info (img.px x y) >>> 8) &&& 0xFF) ∧
      ∀ j, j ≠ y * info.stride + x * 2 → j ≠ y * info.stride + x * 2 + 1 →
        out[j]? = buf[j]? := by
  have h0 : y * info.stride + x * 2 < buf.length := by omega
  have e1 : writeByte buf (y * info.stride + x * 2)
      (pack16PixelWord info (img.px x y) &&& 0xFF) =
      .ok (buf.set (y * info.stride + x * 2) (pack16PixelWord info (img.px x y) &&& 0xFF)) :=
    writeByte_ok _ h0
  have h1 : y * info.stride + x * 2 + 1 <
      (buf.set (y * info.stride + x * 2) (pack16PixelWord info (img.px x y) &&& 0xFF)).length := by
    rw [List.length_set]; omega
  refine ⟨(buf.set (y * info.stride + x * 2) (pack16PixelWord info (img.px x y) &&& 0xFF)).set
      (y * info.stride + x * 2 + 1) ((pack16PixelWord info (img.px x y) >>> 8) &&& 0xFF),
    ?_, ?_, ?_, ?_, ?_⟩
  · simp only [pack16Px]
    rw [e1]
    exact writeByte_ok _ h1
  · simp [List.length_set]
  · rw [List.getElem?_set_ne (by omega), List.getElem?_set_self h0]
  · rw [List.getElem?_set_self h1]
  · intro j hj1 hj2
    rw [List.getElem?_set_ne (by omega), List.getElem?_set_ne (by omega)]

lemma pack16Row_spec (img : RasterImage) (info : FBInfo) (y : Nat) (n : Nat) :
    ∀ (a : Nat) (buf : List Nat),
      y * info.stride + (a + n) * 2 ≤ buf.length →
      ∃ out, exFold (pack16Px img info y) buf (List.range' a n) = .ok out ∧
        out.length = buf.length ∧
        (∀ x, a ≤ x → x < a + n →
          out[y * info.stride + x * 2]? =
            some (pack16PixelWord info (img.px x y) &&& 0xFF) ∧
          out[y * info.stride + x * 2 + 1]? =
            some ((pack16PixelWord info (img.px x y) >>> 8) &&& 0xFF)) ∧
        (∀ j, (j < y * info.stride + a * 2 ∨ y * info.stride + (a + n) * 2 ≤ j) →
          out[j]? = buf[j]?) := by
  induction n with
  | zero =>
    intro a buf _
    exact ⟨buf, rfl, rfl, fun x h1 h2 => absurd h2 (by omega), fun j _ => rfl⟩
  | succ n ih =>
    intro a buf h
    obtain ⟨b1, hb1, hlen1, hv0, hv1, hunch⟩ :=
      pack16Px_spec img info y a buf (by omega)
    obtain ⟨out, hout, hlen, hvals, hun⟩ := ih (a + 1) b1 (by omega)
    refine ⟨out, ?_, by omega, ?_, ?_⟩
    · rw [List.range'_succ]
      simp only [exFold]
      rw [hb1]
      exact hout
    · intro x hx1 hx2
      rcases Nat.eq_or_lt_of_le hx1 with heq | hlt
      · subst heq
        constructor
        · rw [hun _ (Or.inl (by omega))]; exact hv0
        · rw [hun _ (Or.inl (by omega))]; exact hv1
      · exact hvals x hlt (by omega)
    · intro j hj
      rw [hun j (by omega), hunch j (by omega) (by omega)]

lemma pack16Rows_spec (img : RasterImage) (info : FBInfo)
    (hw : img.width * 2 ≤ info.stride) (L : Nat) (n : Nat) :
    ∀ (a : Nat) (buf : List Nat), buf.length = L → (a + n) * info.stride ≤ L →
      ∃ out, exFold (fun b y => exFold (pack16Px img info y) b (List.range img.width))
          buf (List.range' a n) = .ok out ∧
        out.length = L ∧
        (∀ y x, a ≤ y → y < a + n → x < img.width →
          out[y * info.stride + x * 2]? =
            some (pack16PixelWord info (img.px x y) &&& 0xFF) ∧
          out[y * info.stride + x * 2 + 1]? =
            some ((pack16PixelWord info (img.px x y) >>> 8) &&& 0xFF)) ∧
        (∀ j, (∀ y, a ≤ y → y < a + n →
            j < y * info.stride ∨ y * info.stride + img.width * 2 ≤ j) →
          out[j]? = buf[j]?) := by
  induction n with
  | zero =>
    intro a buf hb _
    exact ⟨buf, rfl, hb, fun y x h1 h2 => absurd h2 (by omega), fun j _ => rfl⟩
  | succ n ih =>
    intro a buf hb h
    have hsucc : a * info.stride + info.stride = (a + 1) * info.stride := by ring
    have hstep : (a + 1) * info.stride ≤ (a + (n + 1)) * info.stride :=
      Nat.mul_le_mul_right _ (by omega)
    obtain ⟨b1, hb1, hlen1, hv, hunch⟩ :=
      pack16Row_spec img info a img.width 0 buf (by omega)
    obtain ⟨out, hout, hlen, hvals, hun⟩ := ih (a + 1) b1 (by omega)
      (by have e : a + 1 + n = a + (n + 1) := by omega
          rw [e]; omega)
    refine ⟨out, ?_, hlen, ?_, ?_⟩
    · rw [List.range'_succ]
      simp only [exFold]
      rw [← List.range_eq_range'] at hb1
      rw [hb1]
      exact hout
    · intro y x hy1 hy2 hx
      rcases Nat.eq_or_lt_of_le hy1 with heq | hlt
      · subst heq
        have hpos : ∀ y2, a + 1 ≤ y2 → y2 < a + 1 + n →
            a * info.stride + x * 2 + 1 < y2 * info.stride := by
          intro y2 hy21 _
          have h1 : (a + 1) * info.stride ≤ y2 * info.stride :=
            Nat.mul_le_mul_right _ hy21
          have h2 : a * info.stride + info.stride = (a + 1) * info.stride := by ring
          omega
        obtain ⟨hv0, hv1⟩ := hv x (Nat.zero_le x) (by omega)
        constructor
        · rw [hun _ (fun y2 h1 h2 => Or.inl (by have := hpos y2 h1 h2; omega))]
          exact hv0
        · rw [hun _ (fun y2 h1 h2 => Or.inl (hpos y2 h1 h2))]
          exact hv1
      · exact hvals y x hlt (by omega) hx
    · intro j hj
      rw [hun j (fun y2 h1 h2 => hj y2 (by omega) (by omega))]
      rcases hj a (by omega) (by omega) with hcase | hcase
      · exact hunch j (Or.inl (by omega))
      · exact hunch j (Or.inr (by omega))

lemma pack16_master (img : RasterImage) (info : FBInfo)
    (h565 : info.r.2 = 5 ∧ info.g.2 = 6 ∧ info.b.2 = 5)
    (hw : img.width * 2 ≤ info.stride) :
    ∃ out, _pack_16bit img info = .ok out ∧
      out.length = info.stride * img.height ∧
      (∀ x y, x < img.width → y < img.height →
        out[y * info.stride + x * 2]? =
          some (pack16PixelWord info (img.px x y) &&& 0xFF) ∧
        out[y * info.stride + x * 2 + 1]? =
          some ((pack16PixelWord info (img.px x y) >>> 8) &&& 0xFF)) ∧
      (∀ y c, y < img.height → img.width * 2 ≤ c → c < info.stride →
        out[y * info.stride + c]? = some 0) := by
  obtain ⟨out, hout, hlen, hvals, hun⟩ :=
    pack16Rows_spec img info hw (info.stride * img.height) img.height 0
      (List.replicate (info.stride * img.height) 0) (List.length_replicate _ _)
      (by rw [Nat.zero_add, Nat.mul_comm])
  refine ⟨out, ?_, hlen, fun x y hx hy => hvals y x (Nat.zero_le _) (by omega) hx, ?_⟩
  · rw [_pack_16bit, if_pos h565, ← List.range_eq_range'] at *
    exact hout
  · intro y c hy h2w hc
    have hin : y * info.stride + c < info.stride * img.height := by
      have h1 : (y + 1) * info.stride ≤ img.height * info.stride :=
        Nat.mul_le_mul_right _ (by omega)
      have h2 : y * info.stride + info.stride = (y + 1) * info.stride := by ring
      have h3 : img.height * info.stride = info.stride * img.height := by ring
      omega
    rw [hun (y * info.stride + c) ?_, List.getElem?_replicate, if_pos hin]
    intro y2 _ hy2
    rcases Nat.lt_trichotomy y2 y with hlt | heq | hgt
    · right
      have h1 : (y2 + 1) * info.stride ≤ y * info.stride :=
        Nat.mul_le_mul_right _ (by omega)
      have h2 : y2 * info.stride + info.stride = (y2 + 1) * info.stride := by ring
      omega
    · subst heq; right; omega
    · left
      have h1 : (y + 1) * info.stride ≤ y2 * info.stride :=
        Nat.mul_le_mul_right _ (by omega)
      have h2 : y * info.stride + info.stride = (y + 1) * info.stride := by ring
      omega

/-! ### Characterization of the 32bpp packing loops -/

lemma pack32Px_spec (img : RasterImage) (info : FBInfo) (y x : Nat) (buf : List Nat)
    (hfit : pack32PixelWord info (img.px x y) < 2 ^ 32)
    (h : y * info.stride + x * 4 + 4 ≤ buf.length) :
    ∃ out, pack32Px img info y buf x = .ok out ∧
      out.length = buf.length ∧
      (∀ k, k < 4 → out[y * info.stride + x * 4 + k]? =
        (le32Bytes (pack32PixelWord info (img.px x y)))[k]?) ∧
      ∀ j, (j < y * info.stride + x * 4 ∨ y * info.stride + x * 4 + 4 ≤ j) →
        out[j]? = buf[j]? := by
  have hlen4 : (le32Bytes (pack32PixelWord info (img.px x y))).length = 4 := rfl
  refine ⟨setSlice buf (y * info.stride + x * 4) (y * info.stride + x * 4 + 4)
      (le32Bytes (pack32PixelWord info (img.px x y))), ?_, ?_, ?_, ?_⟩
  · simp only [pack32Px]
    rw [if_pos hfit]
  · exact setSlice_length (by rw [hlen4]) (by omega)
  · intro k hk
    exact setSlice_get_bs (by omega) (by rw [hlen4]; omega)
  · intro j hj
    rcases hj with hj | hj
    · exact setSlice_get_lo (by omega) hj
    · exact setSlice_get_hi (by rw [hlen4]) (by omega) hj

lemma pack32Row_spec (img : RasterImage) (info : FBInfo) (y : Nat) (n : Nat) :
    ∀ (a : Nat) (buf : List Nat),
      (∀ x, a ≤ x → x < a + n → pack32PixelWord info (img.px x y) < 2 ^ 32) →
      y * info.stride + (a + n) * 4 ≤ buf.length →
      ∃ out, exFold (pack32Px img info y) buf (List.range' a n) = .ok out ∧
        out.length = buf.length ∧
        (∀ x k, a ≤ x → x < a + n → k < 4 →
          out[y * info.stride + x * 4 + k]? =
            (le32Bytes (pack32PixelWord info (img.px x y)))[k]?) ∧
        (∀ j, (j < y * info.stride + a * 4 ∨ y * info.stride + (a + n) * 4 ≤ j) →
          out[j]? = buf[j]?) := by
  induction n with
  | zero =>
    intro a buf _ _
    exact ⟨buf, rfl, rfl, fun x k h1 h2 => absurd h2 (by omega), fun j _ => rfl⟩
  | succ n ih =>
    intro a buf hfit h
    obtain ⟨b1, hb1, hlen1, hv, hunch⟩ :=
      pack32Px_spec img info y a buf (hfit a (by omega) (by omega)) (by omega)
    obtain ⟨out, hout, hlen, hvals, hun⟩ :=
      ih (a + 1) b1 (fun x h1 h2 => hfit x (by omega) (by omega)) (by omega)
    refine ⟨out, ?_, by omega, ?_, ?_⟩
    · rw [List.range'_succ]
      simp only [exFold]
      rw [hb1]
      exact hout
    · intro x k hx1 hx2 hk
      rcases Nat.eq_or_lt_of_le hx1 with heq | hlt
      · subst heq
        rw [hun _ (Or.inl (by omega))]
        exact hv k hk
      · exact hvals x k hlt (by omega) hk
    · intro j hj
      rw [hun j (by omega), hunch j (by omega)]

lemma pack32Rows_spec (img : RasterImage) (info : FBInfo)
    (hw : img.width * 4 ≤ info.stride) (L : Nat) (n : Nat) :
    ∀ (a : Nat) (buf : List Nat), buf.length = L → (a + n) * info.stride ≤ L →
      (∀ y x, a ≤ y → y < a + n → x < img.width →
        pack32PixelWord info (img.px x y) < 2 ^ 32) →
      ∃ out, exFold (fun b y => exFold (pack32Px img info y) b (List.range img.width))
          buf (List.range' a n) = .ok out ∧
        out.length = L ∧
        (∀ y x k, a ≤ y → y < a + n → x < img.width → k < 4 →
          out[y * info.stride + x * 4 + k]? =
            (le32Bytes (pack32PixelWord info (img.px x y)))[k]?) ∧
        (∀ j, (∀ y, a ≤ y → y < a + n →
            j < y * info.stride ∨ y * info.stride + img.width * 4 ≤ j) →
          out[j]? = buf[j]?) := by
  induction n with
  | zero =>
    intro a buf hb _ _
    exact ⟨buf, rfl, hb, fun y x k h1 h2 => absurd h2 (by omega), fun j _ => rfl⟩
  | succ n ih =>
    intro a buf hb h hfit
    have hsucc : a * info.stride + info.stride = (a + 1) * info.stride := by ring
    have hstep : (a + 1) * info.stride ≤ (a + (n + 1)) * info.stride :=
      Nat.mul_le_mul_right _ (by omega)
    obtain ⟨b1, hb1, hlen1, hv, hunch⟩ :=
      pack32Row_spec img info a img.width 0 buf
        (fun x _ hx => hfit a x (by omega) (by omega) (by omega)) (by omega)
    obtain ⟨out, hout, hlen, hvals, hun⟩ := ih (a + 1) b1 (by omega)
      (by have e : a + 1 + n = a + (n + 1) := by omega
          rw [e]; omega)
      (fun y x h1 h2 hx => hfit y x (by omega) (by omega) hx)
    refine ⟨out, ?_, hlen, ?_, ?_⟩
    · rw [List.range'_succ]
      simp only [exFold]
      rw [← List.range_eq_range'] at hb1
      rw [hb1]
      exact hout
    · intro y x k hy1 hy2 hx hk
      rcases Nat.eq_or_lt_of_le hy1 with heq | hlt
      · subst heq
        have hpos : ∀ y2, a + 1 ≤ y2 → y2 < a + 1 + n →
            a * info.stride + x * 4 + k < y2 * info.stride := by
          intro y2 hy21 _
          have h1 : (a + 1) * info.stride ≤ y2 * info.stride :=
            Nat.mul_le_mul_right _ hy21
          omega
        rw [hun _ (fun y2 h1 h2 => Or.inl (hpos y2 h1 h2))]
        exact hv x k (Nat.zero_le x) (by omega) hk
      · exact hvals y x k hlt (by omega) hx hk
    · intro j hj
      rw [hun j (fun y2 h1 h2 => hj y2 (by omega) (by omega))]
      rcases hj a (by omega) (by omega) with hcase | hcase
      · exact hunch j (Or.inl (by omega))
      · exact hunch j (Or.inr (by omega))

lemma pack32_master (img : RasterImage) (info : FBInfo)
    (h888 : info.r.2 = 8 ∧ info.g.2 = 8 ∧ info.b.2 = 8)
    (hw : img.width * 4 ≤ info.stride)
    (hfits : ∀ y x, y < img.height → x < img.width →
      pack32PixelWord info (img.px x y) < 2 ^ 32) :
    ∃ out, _pack_32bit img info = .ok out ∧
      out.length = info.stride * img.height ∧
      (∀ x y k, x < img.width → y < img.height → k < 4 →
        out[y * info.stride + x * 4 + k]? =
          (le32Bytes (pack32PixelWord info (img.px x y)))[k]?) ∧
      (∀ y c, y < img.height → img.width * 4 ≤ c → c < info.stride →
        out[y * info.stride + c]? = some 0) := by
  obtain ⟨out, hout, hlen, hvals, hun⟩ :=
    pack32Rows_spec img info hw (info.stride * img.height) img.height 0
      (List.replicate (info.stride * img.height) 0) (List.length_replicate _ _)
      (by rw [Nat.zero_add, Nat.mul_comm])
      (fun y x h1 h2 hx => hfits y x (by omega) hx)
  refine ⟨out, ?_, hlen,
    fun x y k hx hy hk => hvals y x k (Nat.zero_le _) (by omega) hx hk, ?_⟩
  · rw [_pack_32bit, if_pos h888, ← List.range_eq_range'] at *
    exact hout
  · intro y c hy h4w hc
    have hin : y * info.stride + c < info.stride * img.height := by
      have h1 : (y + 1) * info.stride ≤ img.height * info.stride :=
        Nat.mul_le_mul_right _ (by omega)
      have h2 : y * info.stride + info.stride = (y + 1) * info.stride := by ring
      have h3 : img.height * info.stride = info.stride * img.height := by ring
      omega
    rw [hun (y * info.stride + c) ?_, List.getElem?_replicate, if_pos hin]
    intro y2 _ hy2
    rcases Nat.lt_trichotomy y2 y with hlt | heq | hgt
    · right
      have h1 : (y2 + 1) * info.stride ≤ y * info.stride :=
        Nat.mul_le_mul_right _ (by omega)
      have h2 : y2 * info.stride + info.stride = (y2 + 1) * info.stride := by ring
      omega
    · subst heq; right; omega
    · left
      have h1 : (y + 1) * info.stride ≤ y2 * info.stride :=
        Nat.mul_le_mul_right _ (by omega)
      have h2 : y * info.stride + info.stride = (y + 1) * info.stride := by ring
      omega

lemma pack32PixelWord_lt (info : FBInfo) (c : Nat × Nat × Nat)
    (hr : info.r.1 + 8 ≤ 32) (hg : info.g.1 + 8 ≤ 32) (hb : info.b.1 + 8 ≤ 32)
    (ha : info.a.1 + info.a.2 ≤ 32)
    (hcr : c.1 < 256) (hcg : c.2.1 < 256) (hcb : c.2.2 < 256) :
    pack32PixelWord info c < 2 ^ 32 := by
  have h256 : (256 : Nat) = 2 ^ 8 := by norm_num
  have t1 : c.1 <<< info.r.1 < 2 ^ 32 := shiftLeft_lt_pow2 (h256 ▸ hcr) (by omega)
  have t2 : c.2.1 <<< info.g.1 < 2 ^ 32 := shiftLeft_lt_pow2 (h256 ▸ hcg) (by omega)
  have t3 : c.2.2 <<< info.b.1 < 2 ^ 32 := shiftLeft_lt_pow2 (h256 ▸ hcb) (by omega)
  have t4 : ((1 <<< info.a.2) - 1) <<< info.a.1 < 2 ^ 32 :=
    shiftLeft_lt_pow2
      (by rw [shiftLeft_one_sub_one]
          exact Nat.sub_lt (Nat.pos_pow_of_pos _ (by norm_num)) (by norm_num))
      ha
  simp only [pack32PixelWord]
  split
  · exact lor_lt_pow2 (lor_lt_pow2 (lor_lt_pow2 t1 t2) t3) t4
  · exact lor_lt_pow2 (lor_lt_pow2 t1 t2) t3

/-! ### Characterization of the RGB565 helper in `fb_driver` -/

lemma flatMap_pair_length (F G : Nat → Nat) (l : List Nat) :
    (l.flatMap fun x => [F x, G x]).length = l.length * 2 := by
  induction l with
  | nil => rfl
  | cons a t ih =>
    simp only [List.flatMap_cons, List.length_append, List.length_cons, ih]
    simp
    omega

lemma row565_length (img : RasterImage) (y : Nat) :
    (row565 img y).length = img.width * 2 := by
  have h := flatMap_pair_length
    (fun x => ((((img.px x y).1 % 256 >>> 3) <<< 11) |||
      (((img.px x y).2.1 % 256 >>> 2) <<< 5) ||| ((img.px x y).2.2 % 256 >>> 3)) % 256)
    (fun x => (((((img.px x y).1 % 256 >>> 3) <<< 11) |||
      (((img.px x y).2.1 % 256 >>> 2) <<< 5) ||| ((img.px x y).2.2 % 256 >>> 3)) >>> 8) % 256)
    (List.range img.width)
  simpa [row565, List.length_range] using h

lemma rgb565_fold_spec (img : RasterImage) (stride : Nat)
    (hw : img.width * 2 ≤ stride) (n : Nat) :
    ∀ (a : Nat) (buf : List Nat), (a + n) * stride ≤ buf.length →
      ((List.range' a n).foldl
          (fun b y => setSlice b (y * stride) (y * stride + img.width * 2) (row565 img y))
          buf).length = buf.length ∧
      ∀ j, (∀ y, a ≤ y → y < a + n → j < y * stride ∨ y * stride + img.width * 2 ≤ j) →
        ((List.range' a n).foldl
          (fun b y => setSlice b (y * stride) (y * stride + img.width * 2) (row565 img y))
          buf)[j]? = buf[j]? := by
  induction n with
  | zero =>
    intro a buf _
    exact ⟨rfl, fun j _ => rfl⟩
  | succ n ih =>
    intro a buf h
    rw [List.range'_succ]
    simp only [List.foldl_cons]
    have hbound : a * stride + img.width * 2 ≤ buf.length := by
      have hsucc : a * stride + stride = (a + 1) * stride := by ring
      have hstep : (a + 1) * stride ≤ (a + (n + 1)) * stride :=
        Nat.mul_le_mul_right _ (by omega)
      omega
    have hlen1 : (setSlice buf (a * stride) (a * stride + img.width * 2)
        (row565 img a)).length = buf.length :=
      setSlice_length (by rw [row565_length]) hbound
    obtain ⟨hlen, hun⟩ := ih (a + 1)
      (setSlice buf (a * stride) (a * stride + img.width * 2) (row565 img a))
      (by rw [hlen1]
          have e : a + 1 + n = a + (n + 1) := by omega
          rw [e]; exact h)
    constructor
    · rw [hlen, hlen1]
    · intro j hj
      rw [hun j (fun y h1 h2 => hj y (by omega) (by omega))]
      rcases hj a (by omega) (by omega) with hc | hc
      · exact setSlice_get_lo (by omega) hc
      · exact setSlice_get_hi (by rw [row565_length]) hbound hc

lemma rgb565_master (img : RasterImage) (stride : Nat) (hw : img.width * 2 ≤ stride) :
    (rgb_to_rgb565_bytes img stride).length = stride * img.height ∧
    ∀ y c, y < img.height → img.width * 2 ≤ c → c < stride →
      (rgb_to_rgb565_bytes img stride)[y * stride + c]? = some 0 := by
  obtain ⟨hlen, hun⟩ := rgb565_fold_spec img stride hw img.height 0
    (List.replicate (stride * img.height) 0)
    (by rw [List.length_replicate, Nat.zero_add, Nat.mul_comm])
  rw [rgb_to_rgb565_bytes, List.range_eq_range']
  constructor
  · rw [hlen, List.length_replicate]
  · intro y c hy h2w hc
    have hin : y * stride + c < stride * img.height := by
      have h1 : (y + 1) * stride ≤ img.height * stride :=
        Nat.mul_le_mul_right _ (by omega)
      have h2 : y * stride + stride = (y + 1) * stride := by ring
      have h3 : img.height * stride = stride * img.height := by ring
      omega
    rw [hun _ ?_, List.getElem?_replicate, if_pos hin]
    intro y2 _ hy2
    rcases Nat.lt_trichotomy y2 y with hlt | heq | hgt
    · right
      have h1 : (y2 + 1) * stride ≤ y * stride :=
        Nat.mul_le_mul_right _ (by omega)
      have h2 : y2 * stride + stride = (y2 + 1) * stride := by ring
      omega
    · subst heq; right; omega
    · left
      have h1 : (y + 1) * stride ≤ y2 * stride :=
        Nat.mul_le_mul_right _ (by omega)
      have h2 : y * stride + stride = (y + 1) * stride := by ring
      omega

/-! ### Bridging lemmas for the encode dispatch and pixel words -/

lemma blitEncode_16 (img : RasterImage) (info : FBInfo)
    (hbpp : info.bpp = 16) (hwm : img.width = info.xres) (hhm : img.height = info.yres) :
    blitEncode img info = _pack_16bit img info := by
  simp [blitEncode, hbpp, hwm, hhm]

lemma blitEncode_32 (img : RasterImage) (info : FBInfo)
    (hbpp : info.bpp = 32) (hwm : img.width = info.xres) (hhm : img.height = info.yres) :
    blitEncode img info = _pack_32bit img info := by
  simp [blitEncode, hbpp, hwm, hhm]

lemma shr_lt {c : Nat} (s l : Nat) (h : c < 2 ^ (s + l)) : c >>> s < 2 ^ l := by
  rw [Nat.shiftRight_eq_div_pow]
  rw [Nat.div_lt_iff_lt_mul (Nat.pos_pow_of_pos s (by norm_num))]
  calc c < 2 ^ (s + l) := h
    _ = 2 ^ l * 2 ^ s := by rw [pow_add, Nat.mul_comm]

lemma and_mask_of_lt {v l : Nat} (h : v < 2 ^ l) : v &&& ((1 <<< l) - 1) = v := by
  rw [shiftLeft_one_sub_one, Nat.and_pow_two_sub_one_eq_mod, Nat.mod_eq_of_lt h]

lemma pack16PixelWord_eq (info : FBInfo) (c : Nat × Nat × Nat)
    (h5 : info.r.2 = 5) (h6 : info.g.2 = 6) (h55 : info.b.2 = 5)
    (hr : c.1 < 256) (hg : c.2.1 < 256) (hb : c.2.2 < 256) :
    pack16PixelWord info c =
      ((c.1 >>> 3) <<< info.r.1) ||| ((c.2.1 >>> 2) <<< info.g.1) |||
        ((c.2.2 >>> 3) <<< info.b.1) := by
  have p8 : (256 : Nat) = 2 ^ 8 := by norm_num
  simp only [pack16PixelWord, h5, h6, h55]
  norm_num
  rw [and_mask_of_lt (shr_lt 3 5 (by rw [show 3 + 5 = 8 from rfl, ← p8]; exact hr)),
    and_mask_of_lt (shr_lt 2 6 (by rw [show 2 + 6 = 8 from rfl, ← p8]; exact hg)),
    and_mask_of_lt (shr_lt 3 5 (by rw [show 3 + 5 = 8 from rfl, ← p8]; exact hb))]

/-! ### Claim theorems -/

/-- Scenario A geometry from the spec:
`FBInfo{width=800,height=480,bpp=16,stride=1600,R=(11,5),G=(5,6),B=(0,5)}`. -/
def scenarioA : FBInfo := ⟨800, 480, 16, 1600, (11, 5), (5, 6), (0, 5), (0, 0)⟩

/-- C1: for every RGB raster matching the device resolution and every
16bpp `FBInfo` with channel lengths (5,6,5) in any offset arrangement
(stride at least the tight row size), encode stores for the pixel
`(r,g,b)` at `(x,y)` the 16-bit word
`((r>>3)<<R.off) ||| ((g>>2)<<G.off) ||| ((b>>3)<<B.off)` in little-endian
byte order (low byte first) at byte offset `y*strideBytes + x*2`; in
particular, with Scenario A geometry, pixel `(255,0,0)` at `(0,0)` encodes
to bytes `0x00, 0xF8` at offset 0. -/
theorem c1_encode16_stores_le_word :
    (∀ (img : RasterImage) (info : FBInfo),
      info.bpp = 16 →
      info.r.2 = 5 ∧ info.g.2 = 6 ∧ info.b.2 = 5 →
      img.width = info.xres → img.height = info.yres →
      info.xres * 2 ≤ info.stride →
      ∃ out, blitEncode img info = .ok out ∧
        ∀ x y, x < info.xres → y < info.yres →
          (img.px x y).1 < 256 → (img.px x y).2.1 < 256 → (img.px x y).2.2 < 256 →
          out[y * info.stride + x * 2]? =
            some (((((img.px x y).1 >>> 3) <<< info.r.1) |||
              (((img.px x y).2.1 >>> 2) <<< info.g.1) |||
              (((img.px x y).2.2 >>> 3) <<< info.b.1)) % 256) ∧
          out[y * info.stride + x * 2 + 1]? =
            some (((((img.px x y).1 >>> 3) <<< info.r.1) |||
              (((img.px x y).2.1 >>> 2) <<< info.g.1) |||
              (((img.px x y).2.2 >>> 3) <<< info.b.1)) / 256 % 256)) ∧
    (∀ img : RasterImage, img.width = 800 → img.height = 480 →
      img.px 0 0 = (255, 0, 0) →
      ∃ out, blitEncode img scenarioA = .ok out ∧
        out[0]? = some 0x00 ∧ out[1]? = some 0xF8) := by
  have main : ∀ (img : RasterImage) (info : FBInfo),
      info.bpp = 16 →
      info.r.2 = 5 ∧ info.g.2 = 6 ∧ info.b.2 = 5 →
      img.width = info.xres → img.height = info.yres →
      info.xres * 2 ≤ info.stride →
      ∃ out, blitEncode img info = .ok out ∧
        ∀ x y, x < info.xres → y < info.yres →
          (img.px x y).1 < 256 → (img.px x y).2.1 < 256 → (img.px x y).2.2 < 256 →
          out[y * info.stride + x * 2]? =
            some (((((img.px x y).1 >>> 3) <<< info.r.1) |||
              (((img.px x y).2.1 >>> 2) <<< info.g.1) |||
              (((img.px x y).2.2 >>> 3) <<< info.b.1)) % 256) ∧
          out[y * info.stride + x * 2 + 1]? =
            some (((((img.px x y).1 >>> 3) <<< info.r.1) |||
              (((img.px x y).2.1 >>> 2) <<< info.g.1) |||
              (((img.px x y).2.2 >>> 3) <<< info.b.1)) / 256 % 256) := by
    intro img info hbpp h565 hwm hhm hstride
    obtain ⟨out, hout, _, hvals, _⟩ :=
      pack16_master img info h565 (by omega)
    refine ⟨out, by rw [blitEncode_16 img info hbpp hwm hhm]; exact hout, ?_⟩
    intro x y hx hy hr hg hb
    obtain ⟨hv0, hv1⟩ := hvals x y (by omega) (by omega)
    have hword := pack16PixelWord_eq info (img.px x y) h565.1 h565.2.1 h565.2.2 hr hg hb
    have p8 : (2 : Nat) ^ 8 = 256 := by norm_num
    constructor
    · rw [hv0, and255_eq_mod, hword]
    · rw [hv1, and255_eq_mod, Nat.shiftRight_eq_div_pow, p8, hword]
  refine ⟨main, ?_⟩
  intro img hw hh hpx
  obtain ⟨out, hout, hvals⟩ :=
    main img scenarioA rfl ⟨rfl, rfl, rfl⟩ hw hh (by decide)
  obtain ⟨hv0, hv1⟩ := hvals 0 0 (by decide) (by decide)
    (by rw [hpx]; norm_num) (by rw [hpx]; norm_num) (by rw [hpx]; norm_num)
  rw [hpx] at hv0 hv1
  refine ⟨out, hout, ?_, ?_⟩
  · simpa [scenarioA] using hv0
  · simpa [scenarioA] using hv1

/-- Concrete 1-by-1 red raster used by witnesses. -/
def constRed : RasterImage := ⟨1, 1, fun _ _ => (255, 0, 0)⟩

/-- Concrete tiny 16bpp RGB565 geometry used by witnesses. -/
def tinyInfo565 : FBInfo := ⟨1, 1, 16, 2, (11, 5), (5, 6), (0, 5), (0, 0)⟩

theorem c1_encode16_stores_le_word_witness :
    ∃ out, blitEncode constRed tinyInfo565 = .ok out ∧
      out[0]? = some 0 ∧ out[1]? = some 248 := by
  obtain ⟨out, hout, hvals⟩ :=
    c1_encode16_stores_le_word.1 constRed tinyInfo565 rfl ⟨rfl, rfl, rfl⟩ rfl rfl
      (by decide)
  obtain ⟨hv0, hv1⟩ := hvals 0 0 (by decide) (by decide)
    (by decide) (by decide) (by decide)
  refine ⟨out, hout, ?_, ?_⟩
  · simpa [constRed, tinyInfo565] using hv0
  · simpa [constRed, tinyInfo565] using hv1

lemma pack32PixelWord_eq_spec (info : FBInfo) (c : Nat × Nat × Nat) :
    pack32PixelWord info c =
      ((c.1 <<< info.r.1) ||| (c.2.1 <<< info.g.1) ||| (c.2.2 <<< info.b.1)) |||
        (if info.a.2 ≠ 0 then ((1 <<< info.a.2) - 1) <<< info.a.1 else 0) := by
  simp only [pack32PixelWord]
  split
  · rfl
  · simp

lemma alpha_bits_one (w o l : Nat) {i : Nat} (h1 : o ≤ i) (h2 : i < o + l) :
    (w ||| ((1 <<< l) - 1) <<< o).testBit i = true := by
  rw [Nat.testBit_lor, Nat.testBit_shiftLeft, shiftLeft_one_sub_one,
    Nat.testBit_two_pow_sub_one]
  simp [h1, show i - o < l by omega]

/-- Scenario B geometry from the spec:
`FBInfo{bpp=32,stride=3200,R=(16,8),G=(8,8),B=(0,8),A=(24,8)}`. -/
def scenarioB : FBInfo := ⟨800, 480, 32, 3200, (16, 8), (8, 8), (0, 8), (24, 8)⟩

/-- C2: for every 8-bit RGB raster matching the device resolution and
every 32bpp `FBInfo` with 8-bit R, G, B fields (fields inside the u32,
stride at least the tight row size), encode stores at
`y*strideBytes + x*4` the little-endian u32
`(r<<R.off) ||| (g<<G.off) ||| (b<<B.off)` with, when `A.length > 0`,
every bit of the alpha field forced to 1 (alpha is never taken from the
raster); in particular, with Scenario B geometry, pixel `(0,255,0)`
encodes to bytes `00, FF, 00, FF` (u32 `0xFF00FF00`). -/
theorem c2_encode32_stores_le_u32 :
    (∀ (img : RasterImage) (info : FBInfo),
      info.bpp = 32 →
      info.r.2 = 8 ∧ info.g.2 = 8 ∧ info.b.2 = 8 →
      img.width = info.xres → img.height = info.yres →
      info.xres * 4 ≤ info.stride →
      info.r.1 + 8 ≤ 32 → info.g.1 + 8 ≤ 32 → info.b.1 + 8 ≤ 32 →
      info.a.1 + info.a.2 ≤ 32 →
      (∀ x y, x < info.xres → y < info.yres →
        (img.px x y).1 < 256 ∧ (img.px x y).2.1 < 256 ∧ (img.px x y).2.2 < 256) →
      ∃ out, blitEncode img info = .ok out ∧
        ∀ x y, x < info.xres → y < info.yres →
          (∀ k, k < 4 → out[y * info.stride + x * 4 + k]? =
            (le32Bytes ((((img.px x y).1 <<< info.r.1) |||
              ((img.px x y).2.1 <<< info.g.1) |||
              ((img.px x y).2.2 <<< info.b.1)) |||
              (if info.a.2 ≠ 0 then ((1 <<< info.a.2) - 1) <<< info.a.1 else 0)))[k]?) ∧
          (info.a.2 ≠ 0 → ∀ i, info.a.1 ≤ i → i < info.a.1 + info.a.2 →
            (((((img.px x y).1 <<< info.r.1) |||
              ((img.px x y).2.1 <<< info.g.1) |||
              ((img.px x y).2.2 <<< info.b.1)) |||
              (if info.a.2 ≠ 0 then ((1 <<< info.a.2) - 1) <<< info.a.1 else 0))).testBit i
              = true)) ∧
    (∀ img : RasterImage, img.width = 800 → img.height = 480 →
      img.px 0 0 = (0, 255, 0) →
      (∀ x y, x < 800 → y < 480 →
        (img.px x y).1 < 256 ∧ (img.px x y).2.1 < 256 ∧ (img.px x y).2.2 < 256) →
      ∃ out, blitEncode img scenarioB = .ok out ∧
        out[0]? = some 0x00 ∧ out[1]? = some 0xFF ∧
        out[2]? = some 0x00 ∧ out[3]? = some 0xFF) := by
  have main : ∀ (img : RasterImage) (info : FBInfo),
      info.bpp = 32 →
      info.r.2 = 8 ∧ info.g.2 = 8 ∧ info.b.2 = 8 →
      img.width = info.xres → img.height = info.yres →
      info.xres * 4 ≤ info.stride →
      info.r.1 + 8 ≤ 32 → info.g.1 + 8 ≤ 32 → info.b.1 + 8 ≤ 32 →
      info.a.1 + info.a.2 ≤ 32 →
      (∀ x y, x < info.xres → y < info.yres →
        (img.px x y).1 < 256 ∧ (img.px x y).2.1 < 256 ∧ (img.px x y).2.2 < 256) →
      ∃ out, blitEncode img info = .ok out ∧
        ∀ x y, x < info.xres → y < info.yres →
          (∀ k, k < 4 → out[y * info.stride + x * 4 + k]? =
            (le32Bytes ((((img.px x y).1 <<< info.r.1) |||
              ((img.px x y).2.1 <<< info.g.1) |||
              ((img.px x y).2.2 <<< info.b.1)) |||
              (if info.a.2 ≠ 0 then ((1 <<< info.a.2) - 1) <<< info.a.1 else 0)))[k]?) ∧
          (info.a.2 ≠ 0 → ∀ i, info.a.1 ≤ i → i < info.a.1 + info.a.2 →
            (((((img.px x y).1 <<< info.r.1) |||
              ((img.px x y).2.1 <<< info.g.1) |||
              ((img.px x y).2.2 <<< info.b.1)) |||
              (if info.a.2 ≠ 0 then ((1 <<< info.a.2) - 1) <<< info.a.1 else 0))).testBit i
              = true) := by
    intro img info hbpp h888 hwm hhm hstride hr8 hg8 hb8 ha8 hpx
    obtain ⟨out, hout, _, hvals, _⟩ :=
      pack32_master img info h888 (by omega)
        (fun y x hy hx => by
          obtain ⟨h1, h2, h3⟩ := hpx x y (by omega) (by omega)
          exact pack32PixelWord_lt info (img.px x y) hr8 hg8 hb8 ha8 h1 h2 h3)
    refine ⟨out, by rw [blitEncode_32 img info hbpp hwm hhm]; exact hout, ?_⟩
    intro x y hx hy
    constructor
    · intro k hk
      rw [hvals x y k (by omega) (by omega) hk, pack32PixelWord_eq_spec]
    · intro hA i hi1 hi2
      rw [if_pos hA]
      exact alpha_bits_one _ _ _ hi1 hi2
  refine ⟨main, ?_⟩
  intro img hw hh hpx hbound
  obtain ⟨out, hout, hvals⟩ :=
    main img scenarioB rfl ⟨rfl, rfl, rfl⟩ hw hh (by decide) (by decide) (by decide)
      (by decide) (by decide) hbound
  obtain ⟨hbytes, _⟩ := hvals 0 0 (by decide) (by decide)
  have h0 := hbytes 0 (by decide)
  have h1 := hbytes 1 (by decide)
  have h2 := hbytes 2 (by decide)
  have h3 := hbytes 3 (by decide)
  rw [hpx] at h0 h1 h2 h3
  refine ⟨out, hout, ?_, ?_, ?_, ?_⟩
  · simpa [scenarioB, le32Bytes] using h0
  · simpa [scenarioB, le32Bytes] using h1
  · simpa [scenarioB, le32Bytes] using h2
  · simpa [scenarioB, le32Bytes] using h3

/-- Concrete 1-by-1 green raster used by witnesses. -/
def constGreen : RasterImage := ⟨1, 1, fun _ _ => (0, 255, 0)⟩

/-- Concrete tiny 32bpp XRGB geometry used by witnesses. -/
def tinyInfo32 : FBInfo := ⟨1, 1, 32, 4, (16, 8), (8, 8), (0, 8), (24, 8)⟩

theorem c2_encode32_stores_le_u32_witness :
    ∃ out, blitEncode constGreen tinyInfo32 = .ok out ∧
      out[0]? = some 0 ∧ out[1]? = some 255 ∧ out[2]? = some 0 ∧ out[3]? = some 255 := by
  obtain ⟨out, hout, hvals⟩ :=
    c2_encode32_stores_le_u32.1 constGreen tinyInfo32 rfl ⟨rfl, rfl, rfl⟩ rfl rfl
      (by decide) (by decide) (by decide) (by decide) (by decide)
      (fun x y _ _ => ⟨by simp [constGreen], by simp [constGreen], by simp [constGreen]⟩)
  obtain ⟨hbytes, _⟩ := hvals 0 0 (by decide) (by decide)
  refine ⟨out, hout, ?_, ?_, ?_, ?_⟩
  · simpa [constGreen, tinyInfo32, le32Bytes] using hbytes 0 (by decide)
  · simpa [constGreen, tinyInfo32, le32Bytes] using hbytes 1 (by decide)
  · simpa [constGreen, tinyInfo32, le32Bytes] using hbytes 2 (by decide)
  · simpa [constGreen, tinyInfo32, le32Bytes] using hbytes 3 (by decide)

/-- C3 counterexample: the encoder does not reject a raster whose
dimensions differ from the `FBInfo` resolution — a 1x1 raster packed
against a 2x2, stride-4 16bpp geometry succeeds and produces a frame
(sized by the raster, not the device) instead of an error. -/
theorem c3_size_mismatch_counterexample :
    constRed.width ≠ (⟨2, 2, 16, 4, (11, 5), (5, 6), (0, 5), (0, 0)⟩ : FBInfo).xres ∧
    _pack_16bit constRed ⟨2, 2, 16, 4, (11, 5), (5, 6), (0, 5), (0, 0)⟩ =
      .ok [0, 248, 0, 0] :=
  ⟨by decide, by rfl⟩

/-- C3 (amended): the encoder performs no dimension check at all — it
reads neither `xres` nor `yres` of the `FBInfo`, and packs at the
raster's own dimensions, encoding without error into a frame of
`strideBytes * raster.height` bytes whenever the tight row fits the
stride; size adaptation is done by the caller `blit_image_to_fb`, which
resizes the raster to the device resolution instead of rejecting it. -/
theorem c3_encoder_ignores_resolution
    (img : RasterImage) (info : FBInfo) (x0 y0 : Nat)
    (h565 : info.r.2 = 5 ∧ info.g.2 = 6 ∧ info.b.2 = 5)
    (hw : img.width * 2 ≤ info.stride) :
    _pack_16bit img { info with xres := x0, yres := y0 } = _pack_16bit img info ∧
    ∃ out, _pack_16bit img info = .ok out ∧
      out.length = info.stride * img.height := by
  constructor
  · rfl
  · obtain ⟨out, hout, hlen, _, _⟩ := pack16_master img info h565 hw
    exact ⟨out, hout, hlen⟩

theorem c3_encoder_ignores_resolution_witness :
    _pack_16bit constRed { tinyInfo565 with xres := 77, yres := 99 } =
      _pack_16bit constRed tinyInfo565 ∧
    ∃ out, _pack_16bit constRed tinyInfo565 = .ok out ∧ out.length = 2 := by
  obtain ⟨h1, out, h2, h3⟩ :=
    c3_encoder_ignores_resolution constRed tinyInfo565 77 99 ⟨rfl, rfl, rfl⟩ (by decide)
  exact ⟨h1, out, h2, h3.trans rfl⟩

/-- C4 counterexample: a frame of 1 byte against a device of
`strideBytes * height = 4` bytes (length mismatch) is not rejected: the
mmap write accepts it and partially overwrites the device. -/
theorem c4_short_frame_counterexample :
    (1 : Nat) ≠ 4 ∧ mmapWrite [7, 7, 7, 7] [9] = .ok [9, 7, 7, 7] :=
  ⟨by decide, by rfl⟩

/-- C4 (amended): the write path has no explicit size check. A frame
longer than the `strideBytes * height` mapping fails (Python `ValueError`)
with no byte written, but a shorter frame is accepted: it is written in
full at offset 0 and the remaining device bytes are left untouched —
there is no `SizeMismatch`-style rejection of short frames. -/
theorem c4_mmap_write_behavior (device frame : List Nat) :
    (device.length < frame.length → mmapWrite device frame = .error .dataOutOfRange) ∧
    (frame.length ≤ device.length →
      mmapWrite device frame = .ok (frame ++ device.drop frame.length)) := by
  constructor
  · intro h
    rw [mmapWrite, if_pos h]
  · intro h
    rw [mmapWrite, if_neg (by omega)]

theorem c4_mmap_write_behavior_witness :
    mmapWrite [7, 7] [9, 9, 9] = .error .dataOutOfRange ∧
    mmapWrite [7, 7, 7, 7] [9, 9] = .ok [9, 9, 7, 7] := by
  refine ⟨(c4_mmap_write_behavior [7, 7] [9, 9, 9]).1 (by decide), ?_⟩
  have h := (c4_mmap_write_behavior [7, 7, 7, 7] [9, 9]).2 (by decide)
  simpa using h

/-- C5 counterexample: `fb_driver._init_fb` raises an unsupported-depth
error for a responding 32bpp device during probing/initialization, before
any encode ever runs. -/
theorem c5_probe_rejects_counterexample :
    _init_fb 800 480 32 3200 = .error (.unsupportedBpp 32) := rfl

/-- C5 (amended): the dashboard probe `_get_fb_info` always succeeds for
any response bytes and never raises an unsupported-depth or
unsupported-bitfield error (validation deferred to the encoder), but
`fb_driver._init_fb` does validate during initialization: every depth
other than 16 bpp is rejected there, and 16 bpp is accepted. -/
theorem c5_probe_validation_split (var fix : List Nat) (x y b st : Nat) :
    (∃ info, _get_fb_info var fix = .ok info) ∧
    (b ≠ 16 → _init_fb x y b st = .error (.unsupportedBpp b)) ∧
    _init_fb x y 16 st = .ok st := by
  refine ⟨⟨_, rfl⟩, ?_, ?_⟩
  · intro h
    rw [_init_fb, if_pos h]
  · rw [_init_fb, if_neg (by omega)]

theorem c5_probe_validation_split_witness :
    (∃ info, _get_fb_info (List.replicate 160 0) (List.replicate 64 0) = .ok info) ∧
    _init_fb 1 1 32 10 = .error (.unsupportedBpp 32) ∧
    _init_fb 1 1 16 10 = .ok 10 := by
  obtain ⟨h1, h2, h3⟩ :=
    c5_probe_validation_split (List.replicate 160 0) (List.replicate 64 0) 1 1 32 10
  exact ⟨h1, h2 (by decide), h3⟩

/-- C6: any `FBInfo` outside the two supported shapes makes encode fail
deterministically with the corresponding unsupported-depth or
unsupported-bitfield error, never producing output bytes: bpp outside
{16,32} hits the depth error, 16bpp with lengths other than (5,6,5) hits
the 16bpp bitfield error, and 32bpp with R, G, B lengths not all 8 hits
the 32bpp bitfield error. -/
theorem c6_unsupported_fails (img : RasterImage) (info : FBInfo) :
    (info.bpp ≠ 16 → info.bpp ≠ 32 →
      blitEncode img info = .error (.unsupportedBpp info.bpp)) ∧
    (info.bpp = 16 → ¬(info.r.2 = 5 ∧ info.g.2 = 6 ∧ info.b.2 = 5) →
      blitEncode img info = .error (.unsupportedBitfield 16)) ∧
    (info.bpp = 32 → ¬(info.r.2 = 8 ∧ info.g.2 = 8 ∧ info.b.2 = 8) →
      blitEncode img info = .error (.unsupportedBitfield 32)) := by
  refine ⟨?_, ?_, ?_⟩
  · intro h16 h32
    simp [blitEncode, h16, h32]
  · intro h16 hbad
    simp [blitEncode, h16, _pack_16bit, hbad]
  · intro h32 hbad
    simp [blitEncode, h32, _pack_32bit, hbad]

theorem c6_unsupported_fails_witness :
    blitEncode constRed ⟨1, 1, 24, 3, (16, 8), (8, 8), (0, 8), (0, 0)⟩ =
      .error (.unsupportedBpp 24) ∧
    blitEncode constRed ⟨1, 1, 16, 2, (10, 5), (5, 5), (0, 5), (0, 0)⟩ =
      .error (.unsupportedBitfield 16) ∧
    blitEncode constRed ⟨1, 1, 32, 4, (16, 8), (8, 8), (0, 4), (0, 0)⟩ =
      .error (.unsupportedBitfield 32) :=
  ⟨(c6_unsupported_fails constRed _).1 (by decide) (by decide),
    (c6_unsupported_fails constRed _).2.1 rfl (by decide),
    (c6_unsupported_fails constRed _).2.2 rfl (by decide)⟩

/-- C7: for matching raster dimensions and either supported depth, the
encoded frame is exactly `strideBytes * height` bytes, including when the
stride exceeds the tight row size — shown for `_pack_16bit`,
`_pack_32bit` and the fixed-layout `rgb_to_rgb565_bytes`. -/
theorem c7_frame_length_exact (img : RasterImage) (info : FBInfo) (stride0 : Nat) :
    (info.r.2 = 5 ∧ info.g.2 = 6 ∧ info.b.2 = 5 →
      img.width * 2 ≤ info.stride →
      img.width = info.xres → img.height = info.yres →
      ∃ out, _pack_16bit img info = .ok out ∧
        out.length = info.stride * info.yres) ∧
    (info.r.2 = 8 ∧ info.g.2 = 8 ∧ info.b.2 = 8 →
      img.width * 4 ≤ info.stride →
      img.width = info.xres → img.height = info.yres →
      info.r.1 + 8 ≤ 32 → info.g.1 + 8 ≤ 32 → info.b.1 + 8 ≤ 32 →
      info.a.1 + info.a.2 ≤ 32 →
      (∀ x y, x < info.xres → y < info.yres →
        (img.px x y).1 < 256 ∧ (img.px x y).2.1 < 256 ∧ (img.px x y).2.2 < 256) →
      ∃ out, _pack_32bit img info = .ok out ∧
        out.length = info.stride * info.yres) ∧
    (img.width * 2 ≤ stride0 →
      (rgb_to_rgb565_bytes img stride0).length = stride0 * img.height) := by
  refine ⟨?_, ?_, ?_⟩
  · intro h565 hw hwm hhm
    obtain ⟨out, hout, hlen, _, _⟩ := pack16_master img info h565 hw
    exact ⟨out, hout, by rw [hlen, hhm]⟩
  · intro h888 hw hwm hhm hr8 hg8 hb8 ha8 hpx
    obtain ⟨out, hout, hlen, _, _⟩ :=
      pack32_master img info h888 hw
        (fun y x hy hx => by
          obtain ⟨h1, h2, h3⟩ := hpx x y (by omega) (by omega)
          exact pack32PixelWord_lt info (img.px x y) hr8 hg8 hb8 ha8 h1 h2 h3)
    exact ⟨out, hout, by rw [hlen, hhm]⟩
  · intro hw
    exact (rgb565_master img stride0 hw).1

theorem c7_frame_length_exact_witness :
    (∃ out, _pack_16bit constRed tinyInfo565 = .ok out ∧ out.length = 2) ∧
    (∃ out, _pack_32bit constGreen tinyInfo32 = .ok out ∧ out.length = 4) ∧
    (rgb_to_rgb565_bytes constRed 6).length = 6 := by
  refine ⟨?_, ?_, ?_⟩
  · obtain ⟨out, hout, hlen⟩ :=
      (c7_frame_length_exact constRed tinyInfo565 6).1 ⟨rfl, rfl, rfl⟩ (by decide) rfl rfl
    exact ⟨out, hout, hlen.trans rfl⟩
  · obtain ⟨out, hout, hlen⟩ :=
      (c7_frame_length_exact constGreen tinyInfo32 6).2.1 ⟨rfl, rfl, rfl⟩ (by decide)
        rfl rfl (by decide) (by decide) (by decide) (by decide)
        (fun x y _ _ => ⟨by simp [constGreen], by simp [constGreen], by simp [constGreen]⟩)
    exact ⟨out, hout, hlen.trans rfl⟩
  · exact ((c7_frame_length_exact constRed tinyInfo565 6).2.2 (by decide)).trans rfl

lemma lor_rotate (A B C : Nat) : A ||| B ||| C = (B ||| C) ||| A := by
  apply Nat.eq_of_testBit_eq
  intro i
  simp [Nat.testBit_lor, Bool.or_comm, Bool.or_assoc, Bool.or_left_comm]

lemma lor_middle (A B C : Nat) : A ||| B ||| C = (A ||| C) ||| B := by
  apply Nat.eq_of_testBit_eq
  intro i
  simp [Nat.testBit_lor, Bool.or_comm, Bool.or_assoc, Bool.or_left_comm]

lemma lor_testBit_false {A B : Nat} {i : Nat}
    (hA : A.testBit i = false) (hB : B.testBit i = false) :
    (A ||| B).testBit i = false := by
  rw [Nat.testBit_lor, hA, hB]
  rfl

/-- C8: for every 8-bit pixel and every 16bpp geometry with channel
lengths (5,6,5) whose three fields occupy pairwise disjoint bit ranges
(any offset permutation), extracting each field of the encoded word at
its offset and shifting it back up to 8 bits recovers each channel within
its quantization bound: at most 7 for the 5-bit fields and at most 3 for
the 6-bit field. -/
theorem c8_decode_within_quantization (info : FBInfo) (r g b : Nat)
    (h565 : info.r.2 = 5 ∧ info.g.2 = 6 ∧ info.b.2 = 5)
    (hr : r < 256) (hg : g < 256) (hb : b < 256)
    (hdRG : fieldsDisjoint info.r info.g)
    (hdRB : fieldsDisjoint info.r info.b)
    (hdGB : fieldsDisjoint info.g info.b) :
    (decodeChannel (pack16PixelWord info (r, g, b)) info.r.1 info.r.2 ≤ r ∧
      r - decodeChannel (pack16PixelWord info (r, g, b)) info.r.1 info.r.2 ≤ 7) ∧
    (decodeChannel (pack16PixelWord info (r, g, b)) info.g.1 info.g.2 ≤ g ∧
      g - decodeChannel (pack16PixelWord info (r, g, b)) info.g.1 info.g.2 ≤ 3) ∧
    (decodeChannel (pack16PixelWord info (r, g, b)) info.b.1 info.b.2 ≤ b ∧
      b - decodeChannel (pack16PixelWord info (r, g, b)) info.b.1 info.b.2 ≤ 7) := by
  obtain ⟨h5, h6, h55⟩ := h565
  have p8 : (256 : Nat) = 2 ^ 8 := by norm_num
  have hrv : r >>> 3 < 2 ^ 5 := shr_lt 3 5 (by rw [show 3 + 5 = 8 from rfl, ← p8]; exact hr)
  have hgv : g >>> 2 < 2 ^ 6 := shr_lt 2 6 (by rw [show 2 + 6 = 8 from rfl, ← p8]; exact hg)
  have hbv : b >>> 3 < 2 ^ 5 := shr_lt 3 5 (by rw [show 3 + 5 = 8 from rfl, ← p8]; exact hb)
  have hword : pack16PixelWord info (r, g, b) =
      ((r >>> 3) <<< info.r.1) ||| ((g >>> 2) <<< info.g.1) ||| ((b >>> 3) <<< info.b.1) :=
    pack16PixelWord_eq info (r, g, b) h5 h6 h55 hr hg hb
  rw [fieldsDisjoint, h5, h6] at hdRG
  rw [fieldsDisjoint, h5, h55] at hdRB
  rw [fieldsDisjoint, h6, h55] at hdGB
  have hdecR : decodeChannel (pack16PixelWord info (r, g, b)) info.r.1 info.r.2 =
      (r >>> 3) <<< 3 := by
    rw [hword, h5, lor_rotate, decodeChannel, extract_lor_high hrv ?_]
    intro i hi1 hi2
    exact lor_testBit_false
      (shiftLeft_testBit_false_of_disjoint hgv (by omega) i hi1 hi2)
      (shiftLeft_testBit_false_of_disjoint hbv (by omega) i hi1 hi2)
  have hdecG : decodeChannel (pack16PixelWord info (r, g, b)) info.g.1 info.g.2 =
      (g >>> 2) <<< 2 := by
    rw [hword, h6, lor_middle, decodeChannel, extract_lor_high hgv ?_]
    intro i hi1 hi2
    exact lor_testBit_false
      (shiftLeft_testBit_false_of_disjoint hrv (by omega) i hi1 hi2)
      (shiftLeft_testBit_false_of_disjoint hbv (by omega) i hi1 hi2)
  have hdecB : decodeChannel (pack16PixelWord info (r, g, b)) info.b.1 info.b.2 =
      (b >>> 3) <<< 3 := by
    rw [hword, h55, decodeChannel, extract_lor_high hbv ?_]
    intro i hi1 hi2
    exact lor_testBit_false
      (shiftLeft_testBit_false_of_disjoint hrv (by omega) i hi1 hi2)
      (shiftLeft_testBit_false_of_disjoint hgv (by omega) i hi1 hi2)
  have e3 : (2 : Nat) ^ 3 = 8 := by norm_num
  have e2 : (2 : Nat) ^ 2 = 4 := by norm_num
  refine ⟨⟨?_, ?_⟩, ⟨?_, ?_⟩, ⟨?_, ?_⟩⟩ <;>
    simp only [hdecR, hdecG, hdecB, Nat.shiftRight_eq_div_pow, Nat.shiftLeft_eq, e3, e2] <;>
    omega

theorem c8_decode_within_quantization_witness :
    (decodeChannel (pack16PixelWord tinyInfo565 (200, 100, 50))
        tinyInfo565.r.1 tinyInfo565.r.2 ≤ 200 ∧
      200 - decodeChannel (pack16PixelWord tinyInfo565 (200, 100, 50))
        tinyInfo565.r.1 tinyInfo565.r.2 ≤ 7) ∧
    (decodeChannel (pack16PixelWord tinyInfo565 (200, 100, 50))
        tinyInfo565.g.1 tinyInfo565.g.2 ≤ 100 ∧
      100 - decodeChannel (pack16PixelWord tinyInfo565 (200, 100, 50))
        tinyInfo565.g.1 tinyInfo565.g.2 ≤ 3) ∧
    (decodeChannel (pack16PixelWord tinyInfo565 (200, 100, 50))
        tinyInfo565.b.1 tinyInfo565.b.2 ≤ 50 ∧
      50 - decodeChannel (pack16PixelWord tinyInfo565 (200, 100, 50))
        tinyInfo565.b.1 tinyInfo565.b.2 ≤ 7) :=
  c8_decode_within_quantization tinyInfo565 200 100 50 ⟨rfl, rfl, rfl⟩
    (by decide) (by decide) (by decide) (by decide) (by decide) (by decide)

/-- C9: whenever the stride exceeds the tight row size, every byte of the
padding region `[row_base + width*bytesPerPixel, row_base + stride)` of
every row of the encoded frame is zero — the loops write only the first
`width*bytesPerPixel` bytes of each row of the zero-initialized buffer —
shown for `_pack_16bit`, `_pack_32bit` and `rgb_to_rgb565_bytes`. -/
theorem c9_row_padding_zero (img : RasterImage) (info : FBInfo) (stride0 : Nat) :
    (info.r.2 = 5 ∧ info.g.2 = 6 ∧ info.b.2 = 5 →
      img.width * 2 ≤ info.stride →
      ∃ out, _pack_16bit img info = .ok out ∧
        ∀ y c, y < img.height → img.width * 2 ≤ c → c < info.stride →
          out[y * info.stride + c]? = some 0) ∧
    (info.r.2 = 8 ∧ info.g.2 = 8 ∧ info.b.2 = 8 →
      img.width * 4 ≤ info.stride →
      info.r.1 + 8 ≤ 32 → info.g.1 + 8 ≤ 32 → info.b.1 + 8 ≤ 32 →
      info.a.1 + info.a.2 ≤ 32 →
      (∀ x y, x < img.width → y < img.height →
        (img.px x y).1 < 256 ∧ (img.px x y).2.1 < 256 ∧ (img.px x y).2.2 < 256) →
      ∃ out, _pack_32bit img info = .ok out ∧
        ∀ y c, y < img.height → img.width * 4 ≤ c → c < info.stride →
          out[y * info.stride + c]? = some 0) ∧
    (img.width * 2 ≤ stride0 →
      ∀ y c, y < img.height → img.width * 2 ≤ c → c < stride0 →
        (rgb_to_rgb565_bytes img stride0)[y * stride0 + c]? = some 0) := by
  refine ⟨?_, ?_, ?_⟩
  · intro h565 hw
    obtain ⟨out, hout, _, _, hpad⟩ := pack16_master img info h565 hw
    exact ⟨out, hout, hpad⟩
  · intro h888 hw hr8 hg8 hb8 ha8 hpx
    obtain ⟨out, hout, _, _, hpad⟩ :=
      pack32_master img info h888 hw
        (fun y x hy hx => by
          obtain ⟨h1, h2, h3⟩ := hpx x y hx hy
          exact pack32PixelWord_lt info (img.px x y) hr8 hg8 hb8 ha8 h1 h2 h3)
    exact ⟨out, hout, hpad⟩
  · intro hw
    exact (rgb565_master img stride0 hw).2

/-- Concrete 16bpp geometry with stride padding used by witnesses. -/
def pad565 : FBInfo := ⟨1, 1, 16, 4, (11, 5), (5, 6), (0, 5), (0, 0)⟩

/-- Concrete 32bpp geometry with stride padding used by witnesses. -/
def pad32 : FBInfo := ⟨1, 1, 32, 6, (16, 8), (8, 8), (0, 8), (24, 8)⟩

theorem c9_row_padding_zero_witness :
    (∃ out, _pack_16bit constRed pad565 = .ok out ∧ out[2]? = some 0) ∧
    (∃ out, _pack_32bit constGreen pad32 = .ok out ∧ out[5]? = some 0) ∧
    (rgb_to_rgb565_bytes constRed 4)[3]? = some 0 := by
  refine ⟨?_, ?_, ?_⟩
  · obtain ⟨out, hout, hpad⟩ :=
      (c9_row_padding_zero constRed pad565 4).1 ⟨rfl, rfl, rfl⟩ (by decide)
    refine ⟨out, hout, ?_⟩
    simpa using hpad 0 2 (by decide) (by decide) (by decide)
  · obtain ⟨out, hout, hpad⟩ :=
      (c9_row_padding_zero constGreen pad32 4).2.1 ⟨rfl, rfl, rfl⟩ (by decide)
        (by decide) (by decide) (by decide) (by decide)
        (fun x y _ _ => ⟨by simp [constGreen], by simp [constGreen], by simp [constGreen]⟩)
    refine ⟨out, hout, ?_⟩
    simpa using hpad 0 5 (by decide) (by decide) (by decide)
  · simpa using
      (c9_row_padding_zero constRed pad565 4).2.2 (by decide) 0 3
        (by decide) (by decide) (by decide)


/-- C10: `blit_image_to_fb` adapts any mismatched input to the device:
when the raster size differs from `(xres, yres)` it packs the
nearest-neighbor resize to exactly the device resolution — on the 16bpp
and the 32bpp path alike, since the resize happens before the depth
dispatch — and on either supported depth the encoded payload has length
`strideBytes * yres` and is accepted by the device write, regardless of
the caller-supplied image size. -/
theorem c10_blit_resizes_to_device (img : RasterImage) (info : FBInfo) :
    (¬(img.width = info.xres ∧ img.height = info.yres) →
      (resizeNearest img info.xres info.yres).width = info.xres ∧
      (resizeNearest img info.xres info.yres).height = info.yres ∧
      (info.bpp = 16 →
        blitEncode img info = _pack_16bit (resizeNearest img info.xres info.yres) info) ∧
      (info.bpp = 32 →
        blitEncode img info = _pack_32bit (resizeNearest img info.xres info.yres) info)) ∧
    (info.bpp = 16 → info.r.2 = 5 ∧ info.g.2 = 6 ∧ info.b.2 = 5 →
      info.xres * 2 ≤ info.stride →
      ∃ out, blitEncode img info = .ok out ∧
        out.length = info.stride * info.yres ∧
        ∀ device : List Nat, device.length = info.stride * info.yres →
          blit_image_to_fb img info device = .ok (out ++ device.drop out.length)) ∧
    (info.bpp = 32 → info.r.2 = 8 ∧ info.g.2 = 8 ∧ info.b.2 = 8 →
      info.xres * 4 ≤ info.stride →
      info.r.1 + 8 ≤ 32 → info.g.1 + 8 ≤ 32 → info.b.1 + 8 ≤ 32 →
      info.a.1 + info.a.2 ≤ 32 →
      (∀ x y, (img.px x y).1 < 256 ∧ (img.px x y).2.1 < 256 ∧ (img.px x y).2.2 < 256) →
      ∃ out, blitEncode img info = .ok out ∧
        out.length = info.stride * info.yres ∧
        ∀ device : List Nat, device.length = info.stride * info.yres →
          blit_image_to_fb img info device = .ok (out ++ device.drop out.length)) := by
  refine ⟨?_, ?_, ?_⟩
  · intro hne
    refine ⟨rfl, rfl, ?_, ?_⟩
    · intro hbpp
      simp [blitEncode, hbpp, hne]
    · intro hbpp
      simp [blitEncode, hbpp, hne]
  · intro hbpp h565 hstride
    have henc : ∃ out, blitEncode img info = .ok out ∧
        out.length = info.stride * info.yres := by
      by_cases hmatch : img.width = info.xres ∧ img.height = info.yres
      · obtain ⟨out, hout, hlen, _, _⟩ := pack16_master img info h565 (by omega)
        refine ⟨out, ?_, by rw [hlen, hmatch.2]⟩
        rw [blitEncode_16 img info hbpp hmatch.1 hmatch.2]
        exact hout
      · obtain ⟨out, hout, hlen, _, _⟩ :=
          pack16_master (resizeNearest img info.xres info.yres) info h565 hstride
        refine ⟨out, ?_, hlen⟩
        rw [show blitEncode img info =
          _pack_16bit (resizeNearest img info.xres info.yres) info from by
            simp [blitEncode, hbpp, hmatch]]
        exact hout
    obtain ⟨out, hout, hlen⟩ := henc
    refine ⟨out, hout, hlen, ?_⟩
    intro device hdev
    simp only [blit_image_to_fb, hout, mmapWrite]
    rw [if_neg (by omega)]
  · intro hbpp h888 hstride hr8 hg8 hb8 ha8 hpx
    have henc : ∃ out, blitEncode img info = .ok out ∧
        out.length = info.stride * info.yres := by
      by_cases hmatch : img.width = info.xres ∧ img.height = info.yres
      · obtain ⟨out, hout, hlen, _, _⟩ :=
          pack32_master img info h888 (by omega)
            (fun y x _ _ => by
              obtain ⟨h1, h2, h3⟩ := hpx x y
              exact pack32PixelWord_lt info (img.px x y) hr8 hg8 hb8 ha8 h1 h2 h3)
        refine ⟨out, ?_, by rw [hlen, hmatch.2]⟩
        rw [blitEncode_32 img info hbpp hmatch.1 hmatch.2]
        exact hout
      · obtain ⟨out, hout, hlen, _, _⟩ :=
          pack32_master (resizeNearest img info.xres info.yres) info h888 hstride
            (fun y x _ _ => by
              obtain ⟨h1, h2, h3⟩ :=
                hpx ((2 * x + 1) * img.width / (2 * info.xres))
                  ((2 * y + 1) * img.height / (2 * info.yres))
              exact pack32PixelWord_lt info
                ((resizeNearest img info.xres info.yres).px x y) hr8 hg8 hb8 ha8 h1 h2 h3)
        refine ⟨out, ?_, hlen⟩
        rw [show blitEncode img info =
          _pack_32bit (resizeNearest img info.xres info.yres) info from by
            simp [blitEncode, hbpp, hmatch]]
        exact hout
    obtain ⟨out, hout, hlen⟩ := henc
    refine ⟨out, hout, hlen, ?_⟩
    intro device hdev
    simp only [blit_image_to_fb, hout, mmapWrite]
    rw [if_neg (by omega)]

theorem c10_blit_resizes_to_device_witness :
    (blitEncode ⟨3, 2, fun _ _ => (0, 255, 0)⟩ tinyInfo565 =
      _pack_16bit (resizeNearest ⟨3, 2, fun _ _ => (0, 255, 0)⟩ 1 1) tinyInfo565) ∧
    (blitEncode ⟨3, 2, fun _ _ => (0, 255, 0)⟩ tinyInfo32 =
      _pack_32bit (resizeNearest ⟨3, 2, fun _ _ => (0, 255, 0)⟩ 1 1) tinyInfo32) ∧
    (∃ out, blitEncode ⟨3, 2, fun _ _ => (0, 255, 0)⟩ tinyInfo565 = .ok out ∧
      out.length = 2 ∧
      blit_image_to_fb ⟨3, 2, fun _ _ => (0, 255, 0)⟩ tinyInfo565 [5, 5] =
        .ok (out ++ [5, 5].drop out.length)) ∧
    (∃ out, blitEncode ⟨3, 2, fun _ _ => (0, 255, 0)⟩ tinyInfo32 = .ok out ∧
      out.length = 4 ∧
      blit_image_to_fb ⟨3, 2, fun _ _ => (0, 255, 0)⟩ tinyInfo32 [5, 5, 5, 5] =
        .ok (out ++ [5, 5, 5, 5].drop out.length)) := by
  obtain ⟨h16a, h16b, _⟩ :=
    c10_blit_resizes_to_device ⟨3, 2, fun _ _ => (0, 255, 0)⟩ tinyInfo565
  obtain ⟨h32a, _, h32c⟩ :=
    c10_blit_resizes_to_device ⟨3, 2, fun _ _ => (0, 255, 0)⟩ tinyInfo32
  refine ⟨(h16a (by decide)).2.2.1 rfl, (h32a (by decide)).2.2.2 rfl, ?_, ?_⟩
  · obtain ⟨out, hout, hlen, hwrite⟩ := h16b rfl ⟨rfl, rfl, rfl⟩ (by decide)
    exact ⟨out, hout, hlen.trans rfl, hwrite [5, 5] (by decide)⟩
  · obtain ⟨out, hout, hlen, hwrite⟩ := h32c rfl ⟨rfl, rfl, rfl⟩ (by decide)
      (by decide) (by decide) (by decide) (by decide)
      (fun x y => ⟨by norm_num, by norm_num, by norm_num⟩)
    exact ⟨out, hout, hlen.trans rfl, hwrite [5, 5, 5, 5] (by decide)⟩
